import Mathlib

/-!
Shallow embedding of the bt-optimizer backend (KevinHancke/bt-optimizer),
covering the modules the claims touch:

* `src/backend/app/backtest.py`            — bar-by-bar trade simulator
* `src/backend/app/performance_summary.py` — performance aggregation
* `src/backend/app/apply_signals.py`       — condition evaluator and signals
* `src/backend/app/optimize.py`            — parameter sweep and ranking

Python floats are modelled as exact rationals (`ℚ`); `float('inf')` as `⊤`
in `WithTop ℚ`.  Pandas DataFrames are modelled as ordered association
lists from column name to column values.  Bar timestamps (the DataFrame
index, `df.iloc[i].name`) are modelled as rationals.
-/

namespace BtOpt

/-! ### Embedding of src/backend/app/backtest.py -/

inductive Side where
  | long
  | short
deriving DecidableEq, Repr

/-- One row of the bar table as consumed by `backtest`:
the index timestamp (`.name`), the `low`, `high` and `entry_price`
columns, and the integer 0/1 signal columns (used for their truthiness,
hence modelled as `Bool`). -/
structure Bar where
  time : ℚ
  low : ℚ
  high : ℚ
  entry_price : ℚ
  buy_signal : Bool
  sell_signal : Bool
deriving DecidableEq, Repr

instance : Inhabited Bar := ⟨⟨0, 0, 0, 0, false, false⟩⟩

/-- `df.iloc[i]`.  The backtest loop only reads indices `i` and `i + 1`
with `i < len(df) - 1`, so the default value is never consulted on the
paths the source exercises. -/
def bar (df : List Bar) (i : Nat) : Bar := df.getD i default

/-- The open-position dictionary built by `handle_buy_entry` /
`handle_sell_entry`.  The Python code pairs an empty dict with an
`in_position` flag; both are collapsed into an `Option`. -/
structure OpenTrade where
  entry_price : ℚ
  entry_time : ℚ
  side : Side
  tp_price : ℚ
  sl_price : ℚ
  sl_distance : ℚ
deriving DecidableEq, Repr

/-- A completed trade as produced by `process_exit_signal`. -/
structure Trade where
  entry_time : ℚ
  entry_price : ℚ
  side : Side
  tp_target : ℚ
  sl_target : ℚ
  sl_distance : ℚ
  exit_time : ℚ
  exit_price : ℚ
  perc_chg : ℚ
deriving DecidableEq, Repr

/-- `process_exit_signal` (backtest.py lines 17-29). -/
def process_exit_signal (t : OpenTrade) (exit_time exit_price percentage_change : ℚ) : Trade :=
  { entry_time := t.entry_time
    entry_price := t.entry_price
    side := t.side
    tp_target := t.tp_price
    sl_target := t.sl_price
    sl_distance := t.sl_distance
    exit_time := exit_time
    exit_price := exit_price
    perc_chg := percentage_change }

/-- `handle_buy_exit` (backtest.py lines 31-58): stop loss is checked
first, then take profit; `df.iloc[i].name` is the bar timestamp. -/
def handle_buy_exit (i : Nat) (df : List Bar) (cur : Option OpenTrade)
    (buy_trades : List Trade) (tp sl : ℚ) : Option OpenTrade × List Trade :=
  match cur with
  | none => (none, buy_trades)
  | some t =>
    if (bar df i).low < t.sl_price then
      (none, buy_trades ++ [process_exit_signal t (bar df i).time t.sl_price (-1 * sl / 100)])
    else if (bar df i).high > t.tp_price then
      (none, buy_trades ++ [process_exit_signal t (bar df i).time t.tp_price (tp / 100)])
    else
      (some t, buy_trades)

/-- `handle_sell_exit` (backtest.py lines 60-87): mirrored, stop loss on
`high`, take profit on `low`. -/
def handle_sell_exit (i : Nat) (df : List Bar) (cur : Option OpenTrade)
    (sell_trades : List Trade) (tp sl : ℚ) : Option OpenTrade × List Trade :=
  match cur with
  | none => (none, sell_trades)
  | some t =>
    if (bar df i).high > t.sl_price then
      (none, sell_trades ++ [process_exit_signal t (bar df i).time t.sl_price (-1 * sl / 100)])
    else if (bar df i).low < t.tp_price then
      (none, sell_trades ++ [process_exit_signal t (bar df i).time t.tp_price (tp / 100)])
    else
      (some t, sell_trades)

/-- `handle_buy_entry` (backtest.py lines 89-101): when flat and the bar
has a buy signal, open a long at the precomputed `entry_price` with
`entry_time` taken from bar `i + 1`. -/
def handle_buy_entry (i : Nat) (df : List Bar) (cur : Option OpenTrade)
    (tp sl : ℚ) : Option OpenTrade :=
  match cur with
  | some t => some t
  | none =>
    if (bar df i).buy_signal then
      some { entry_price := (bar df i).entry_price
             entry_time := (bar df (i + 1)).time
             side := Side.long
             tp_price := (bar df i).entry_price * (1 + tp / 100)
             sl_price := (bar df i).entry_price * (1 - sl / 100)
             sl_distance := (bar df i).entry_price - (bar df i).entry_price * (1 - sl / 100) }
    else none

/-- `handle_sell_entry` (backtest.py lines 103-115). -/
def handle_sell_entry (i : Nat) (df : List Bar) (cur : Option OpenTrade)
    (tp sl : ℚ) : Option OpenTrade :=
  match cur with
  | some t => some t
  | none =>
    if (bar df i).sell_signal then
      some { entry_price := (bar df i).entry_price
             entry_time := (bar df (i + 1)).time
             side := Side.short
             tp_price := (bar df i).entry_price * (1 - tp / 100)
             sl_price := (bar df i).entry_price * (1 + sl / 100)
             sl_distance := (bar df i).entry_price * (1 + sl / 100) - (bar df i).entry_price }
    else none

/-- The mutable state of the main loop of `backtest`. -/
structure BTState where
  buyPos : Option OpenTrade
  sellPos : Option OpenTrade
  buyTrades : List Trade
  sellTrades : List Trade
deriving DecidableEq, Repr

def initState : BTState := ⟨none, none, [], []⟩

/-- One iteration of the loop in `backtest` (backtest.py lines 130-145):
exits for both sides are processed first, then entries, an entry being
attempted only when the corresponding side is flat. -/
def btIter (df : List Bar) (tp sl : ℚ) (s : BTState) (i : Nat) : BTState :=
  let be := handle_buy_exit i df s.buyPos s.buyTrades tp sl
  let se := handle_sell_exit i df s.sellPos s.sellTrades tp sl
  { buyPos := handle_buy_entry i df be.1 tp sl
    sellPos := handle_sell_entry i df se.1 tp sl
    buyTrades := be.2
    sellTrades := se.2 }

/-- State after the first `k` iterations of the loop. -/
def btStateAt (df : List Bar) (tp sl : ℚ) (k : Nat) : BTState :=
  (List.range k).foldl (btIter df tp sl) initState

/-- All trades produced by the loop (`buy_trades + sell_trades`), the
loop running over `i in range(len(df) - 1)`. -/
def backtestTrades (df : List Bar) (tp sl : ℚ) : List Trade :=
  let fin := btStateAt df tp sl (df.length - 1)
  fin.buyTrades ++ fin.sellTrades

/-! ### A minimal DataFrame model for the trade tables

A DataFrame is an ordered association list from column name to the column
values.  Assigning an existing column replaces it in place, assigning a
new one appends it at the end, exactly as in pandas.  All values the
claims touch are numeric, so columns hold rationals; the string-valued
`side` column of the trades table is omitted from the tabular view (no
consumer in the embedded code reads it). -/

abbrev Df := List (String × List ℚ)

def Df.hasCol (df : Df) (c : String) : Bool := df.any (fun p => p.1 == c)

def Df.getCol (df : Df) (c : String) : List ℚ :=
  match df.find? (fun p => p.1 == c) with
  | some p => p.2
  | none => []

def Df.setCol (df : Df) (c : String) (v : List ℚ) : Df :=
  if df.hasCol c then df.map (fun p => if p.1 == c then (c, v) else p)
  else df ++ [(c, v)]

/-- Number of rows; `df.empty` in pandas is `nrows = 0`. -/
def Df.nrows (df : Df) : Nat :=
  match df with
  | [] => 0
  | p :: _ => p.2.length

/-- `create_empty_result` (backtest.py lines 3-15): the one-row all-zero
sentinel.  Note that it has one row, so it is not `.empty`. -/
def create_empty_result : Df :=
  [("entry_time", [0]), ("entry_price", [0]), ("tp_target", [0]), ("sl_target", [0]),
   ("exit_time", [0]), ("exit_price", [0]), ("pnl", [0]), ("equity", [0]), ("pnl_perc", [0])]

/-- `pd.DataFrame(buy_trades + sell_trades)`: the trades as a table, in
dict-key order (`side`, a string column, omitted as explained above). -/
def tradesToDf (ts : List Trade) : Df :=
  [("entry_time", ts.map Trade.entry_time),
   ("entry_price", ts.map Trade.entry_price),
   ("tp_target", ts.map Trade.tp_target),
   ("sl_target", ts.map Trade.sl_target),
   ("sl_distance", ts.map Trade.sl_distance),
   ("exit_time", ts.map Trade.exit_time),
   ("exit_price", ts.map Trade.exit_price),
   ("perc_chg", ts.map Trade.perc_chg)]

/-- `all_trades.sort_values(by='entry_time')`, modelled as a
deterministic comparison sort on `entry_time`. -/
def sortTradesByEntryTime (ts : List Trade) : List Trade :=
  List.insertionSort (fun a b => a.entry_time ≤ b.entry_time) ts

/-- `backtest` (backtest.py lines 117-151): return the sentinel when no
signal fires at all, otherwise run the loop and return the sorted trades
(or the sentinel again when every position stayed open). -/
def backtest (df : List Bar) (tp sl : ℚ) : Df :=
  if (df.filter Bar.buy_signal).length = 0 ∧ (df.filter Bar.sell_signal).length = 0 then
    create_empty_result
  else
    let all_trades := backtestTrades df tp sl
    if all_trades.length > 0 then tradesToDf (sortTradesByEntryTime all_trades)
    else create_empty_result

/-! ### Embedding of src/backend/app/performance_summary.py

Durations are kept as rational time differences; the human-readable
rendering done by `format_timedelta` is presentation only and is not
modelled.  `float('inf')` is modelled as `⊤` in `WithTop ℚ`. -/

structure Summary where
  total_trades : Nat
  win_rate : ℚ
  profit_factor : WithTop ℚ
  final_balance : ℚ
  max_drawdown_percent : ℚ
  avg_trade_duration : ℚ
  total_strategy_duration : ℚ
deriving DecidableEq, Repr

/-- Accumulator of the per-trade loop in `calculate_performance_summary`
(performance_summary.py lines 78-128). -/
structure PerfAcc where
  balance : ℚ
  wins : Nat
  losses : Nat
  total_profit : ℚ
  total_loss : ℚ
  max_balance : ℚ
  max_drawdown : ℚ
deriving DecidableEq, Repr

/-- Body of the `for _, trade in trades_df.iterrows()` loop
(performance_summary.py lines 104-128). -/
def perfStep (risk_per_trade : ℚ) (a : PerfAcc) (pnl_percent : ℚ) : PerfAcc :=
  let position_size := a.balance * risk_per_trade
  let pnl_amount := position_size * pnl_percent
  let balance := a.balance + pnl_amount
  let wins := if pnl_percent > 0 then a.wins + 1 else a.wins
  let total_profit := if pnl_percent > 0 then a.total_profit + pnl_percent else a.total_profit
  let losses := if pnl_percent > 0 then a.losses else a.losses + 1
  let total_loss := if pnl_percent > 0 then a.total_loss else a.total_loss + |pnl_percent|
  let max_balance := if balance > a.max_balance then balance else a.max_balance
  let drawdown := if max_balance > 0 then (max_balance - balance) / max_balance else 0
  { balance := balance
    wins := wins
    losses := losses
    total_profit := total_profit
    total_loss := total_loss
    max_balance := max_balance
    max_drawdown := max a.max_drawdown drawdown }

def listMinD (l : List ℚ) : ℚ :=
  match l with
  | [] => 0
  | x :: xs => xs.foldl min x

def listMaxD (l : List ℚ) : ℚ :=
  match l with
  | [] => 0
  | x :: xs => xs.foldl max x

/-- `calculate_performance_summary` (performance_summary.py lines
45-143).  The function mutates its input table — it reassigns the
`entry_time` / `exit_time` columns (datetime conversion: identity on the
numeric timestamps of this model) and appends a `duration` column — so
the embedding returns the post-call table together with the summary. -/
def calculate_performance_summary (trades_df : Df) (initial_balance risk_per_trade : ℚ) :
    Df × Summary :=
  if trades_df.nrows = 0 then
    (trades_df,
     { total_trades := 0
       win_rate := 0
       profit_factor := (0 : ℚ)
       final_balance := initial_balance
       max_drawdown_percent := 0
       avg_trade_duration := 0
       total_strategy_duration := 0 })
  else
    let pnl_col := if trades_df.hasCol "perc_chg" then "perc_chg" else "pnl_perc"
    let entry_times := trades_df.getCol "entry_time"
    let exit_times := trades_df.getCol "exit_time"
    let df1 := (trades_df.setCol "entry_time" entry_times).setCol "exit_time" exit_times
    let duration := List.zipWith (fun a b => a - b) exit_times entry_times
    let df2 := df1.setCol "duration" duration
    let avg_duration := duration.sum / (duration.length : ℚ)
    let total_duration := listMaxD exit_times - listMinD entry_times
    let a := (df2.getCol pnl_col).foldl (perfStep risk_per_trade)
      { balance := initial_balance
        wins := 0
        losses := 0
        total_profit := 0
        total_loss := 0
        max_balance := initial_balance
        max_drawdown := 0 }
    let total_trades := a.wins + a.losses
    let win_rate := if total_trades > 0 then ((a.wins : ℚ) / (total_trades : ℚ)) * 100 else 0
    let profit_factor : WithTop ℚ :=
      if a.total_loss > 0 then ((a.total_profit / a.total_loss : ℚ) : WithTop ℚ) else ⊤
    (df2,
     { total_trades := total_trades
       win_rate := win_rate
       profit_factor := profit_factor
       final_balance := a.balance
       max_drawdown_percent := a.max_drawdown * 100
       avg_trade_duration := avg_duration
       total_strategy_duration := total_duration })

/-! ### Embedding of src/backend/app/apply_signals.py

Data columns may hold missing values (`NaN`, introduced by `shift` or by
upstream indicator warm-up), so a series is a list of `Option ℚ`.  A
pandas comparison involving `NaN` is false, and the evaluator
additionally applies `.fillna(False)`; both are captured by the `none`
cases of `cmpSeries`. -/

abbrev Series := List (Option ℚ)

abbrev CondDf := List (String × Series)

def CondDf.hasCol (df : CondDf) (c : String) : Bool := df.any (fun p => p.1 == c)

def CondDf.getCol (df : CondDf) (c : String) : Series :=
  match df.find? (fun p => p.1 == c) with
  | some p => p.2
  | none => []

def CondDf.nrows (df : CondDf) : Nat :=
  match df with
  | [] => 0
  | p :: _ => p.2.length

/-- An operand of a condition: a column name plus a lag
(`operand.get('shift', 0)`). -/
structure Operand where
  column : String
  shift : Nat
deriving DecidableEq, Repr

structure Condition where
  left_operand : Operand
  comparator : String
  right_operand : Operand
deriving DecidableEq, Repr

/-- `series.shift(n)`: the first `n` entries become missing, the rest
move down, the length is preserved. -/
def shiftSeries (n : Nat) (s : Series) : Series :=
  (List.replicate n none ++ s).take s.length

/-- `get_shifted_series` (apply_signals.py lines 5-11): raises
`ValueError` when the referenced column does not exist. -/
def get_shifted_series (df : CondDf) (operand : Operand) : Except String Series :=
  if CondDf.hasCol df operand.column then
    Except.ok (shiftSeries operand.shift (CondDf.getCol df operand.column))
  else
    Except.error ("Column " ++ operand.column ++ " does not exist in DataFrame.")

/-- `operator.gt` on float series: an IEEE comparison involving `NaN`
is unordered, so any comparison with a missing operand is false. -/
def pyGt : Option ℚ → Option ℚ → Bool
  | some x, some y => decide (y < x)
  | _, _ => false

/-- `operator.lt` on float series: false when an operand is missing. -/
def pyLt : Option ℚ → Option ℚ → Bool
  | some x, some y => decide (x < y)
  | _, _ => false

/-- `operator.eq` on float series: `NaN == x` is false, including
`NaN == NaN`. -/
def pyEq : Option ℚ → Option ℚ → Bool
  | some x, some y => x == y
  | _, _ => false

/-- `operator.ne` on float series: IEEE inequality, `NaN != x` is TRUE
for every `x`, including `NaN != NaN`. -/
def pyNe : Option ℚ → Option ℚ → Bool
  | some x, some y => x != y
  | _, _ => true

/-- `operator.ge` on float series: false when an operand is missing. -/
def pyGe : Option ℚ → Option ℚ → Bool
  | some x, some y => decide (y ≤ x)
  | _, _ => false

/-- `operator.le` on float series: false when an operand is missing. -/
def pyLe : Option ℚ → Option ℚ → Bool
  | some x, some y => decide (x ≤ y)
  | _, _ => false

/-- The `operators` mapping of apply_signals.py lines 19-26, each
comparator carrying its elementwise float-series semantics including the
IEEE treatment of missing (`NaN`) operands. -/
def operatorsList : List (String × (Option ℚ → Option ℚ → Bool)) :=
  [(">", pyGt), ("<", pyLt), ("==", pyEq), ("!=", pyNe), (">=", pyGe), ("<=", pyLe)]

/-- Elementwise comparison of two series.  A comparison of float series
always produces a boolean series (missing operands are decided by the
IEEE rules baked into each comparator above, never propagated), so the
source's subsequent `.fillna(False)` finds no missing value to fill and
is the identity. -/
def cmpSeries (f : Option ℚ → Option ℚ → Bool) (l r : Series) : List Bool :=
  List.zipWith f l r

/-- `apply_buy_conditions` (apply_signals.py lines 13-45).  The running
`buy_conditions` column is initialized all-true and AND-accumulated; the
source stores it as a column of the frame, returned here as the
resulting boolean series.  The comparator is validated before the
operand columns are resolved, as in the source. -/
def apply_buy_conditions (df : CondDf) (conditions : List Condition) :
    Except String (List Bool) :=
  conditions.foldlM (fun acc condition =>
    match operatorsList.find? (fun p => p.1 == condition.comparator) with
    | some op => do
        let left_series ← get_shifted_series df condition.left_operand
        let right_series ← get_shifted_series df condition.right_operand
        pure (List.zipWith (fun a b => a && b) acc (cmpSeries op.2 left_series right_series))
    | none => Except.error ("Invalid comparator: " ++ condition.comparator))
    (List.replicate (CondDf.nrows df) true)

/-- `apply_sell_conditions` (apply_signals.py lines 47-79): identical
logic on the sell side. -/
def apply_sell_conditions (df : CondDf) (conditions : List Condition) :
    Except String (List Bool) :=
  conditions.foldlM (fun acc condition =>
    match operatorsList.find? (fun p => p.1 == condition.comparator) with
    | some op => do
        let left_series ← get_shifted_series df condition.left_operand
        let right_series ← get_shifted_series df condition.right_operand
        pure (List.zipWith (fun a b => a && b) acc (cmpSeries op.2 left_series right_series))
    | none => Except.error ("Invalid comparator: " ++ condition.comparator))
    (List.replicate (CondDf.nrows df) true)

/-- `calculate_signals` (apply_signals.py lines 81-85) on one conditions
column: `np.where((conds.shift(1) == False) & (conds == True), 1, 0)`.
The shifted-by-one column is the column prefixed with a missing value,
and `NaN == False` is false in pandas. -/
def calculate_signals (conds : List Bool) : List Bool :=
  List.zipWith (fun prev cur => prev == some false && cur)
    (none :: conds.map some) conds

/-! ### Embedding of src/backend/app/optimize.py (the parts the claims
need) -/

/-- `str.isdigit()` of Python: nonempty and all digits. -/
def pyIsDigit (s : String) : Bool := !s.isEmpty && s.toList.all Char.isDigit

/-- Splitting a character list on a separator, Python `str.split(sep)`
semantics: `n` separators yield `n + 1` groups, empty groups kept. -/
def splitCharsOn (c : Char) : List Char → List (List Char)
  | [] => [[]]
  | ch :: rest =>
    match splitCharsOn c rest with
    | [] => [[ch]]
    | g :: gs => if ch == c then [] :: g :: gs else (ch :: g) :: gs

/-- `key.split('_')`. -/
def pySplitUnderscore (s : String) : List String :=
  (splitCharsOn '_' s.toList).map List.asString

/-- `'_' in key`. -/
def containsUnderscore (s : String) : Bool := s.toList.any (fun ch => ch == '_')

/-- `'_'.join(parts)`. -/
def joinUnderscore : List String → String
  | [] => ""
  | [s] => s
  | s :: rest => s ++ "_" ++ joinUnderscore rest

/-- How `run_backtest_with_params` (optimize.py lines 62-100) files one
key of a parameter combination. -/
inductive ParamTarget where
  | indicatorIndexed (indicator_type : String) (indicator_index : String) (param_name : String)
  | indicatorPlain (indicator_type : String) (param_name : String)
  | trading
deriving DecidableEq, Repr

def knownIndicators : List String := ["sma", "ema", "rsi", "macd", "vwap", "bollinger"]

/-- The key classification of optimize.py lines 62-100: keys with an
underscore and a digit second segment are indexed indicator parameters,
keys whose first segment is a known indicator name are plain indicator
parameters, and everything else — including any resample-frequency key —
lands in `trading_params`. -/
def classifyParam (key : String) : ParamTarget :=
  if containsUnderscore key then
    let parts := pySplitUnderscore key
    if decide (parts.length ≥ 2) && pyIsDigit (parts.getD 1 "") then
      ParamTarget.indicatorIndexed (parts.getD 0 "") (parts.getD 1 "")
        (joinUnderscore (parts.drop 2))
    else if knownIndicators.contains (parts.getD 0 "") then
      ParamTarget.indicatorPlain (parts.getD 0 "") (joinUnderscore (parts.drop 1))
    else ParamTarget.trading
  else ParamTarget.trading

/-- The `trading_params` dictionary accumulated by the classification
loop. -/
def tradingParams (params : List (String × ℚ)) : List (String × ℚ) :=
  params.filter (fun kv => classifyParam kv.1 == ParamTarget.trading)

/-- `trading_params.get('tp', 1.0)` (optimize.py line 168). -/
def tpOf (params : List (String × ℚ)) : ℚ :=
  match (tradingParams params).find? (fun kv => kv.1 == "tp") with
  | some kv => kv.2
  | none => 1

/-- `trading_params.get('sl', 1.0)` (optimize.py line 169). -/
def slOf (params : List (String × ℚ)) : ℚ :=
  match (tradingParams params).find? (fun kv => kv.1 == "sl") with
  | some kv => kv.2
  | none => 1

/-- The whole dataframe flow of `run_backtest_with_params` (optimize.py
lines 53-170) between the input copy and the call to `backtest`:
indicator results are appended as extra columns (`pd.concat(axis=1)` /
column assignment, lines 128-133); no resampling of the row timeline and
no re-derivation of `entry_price` occurs anywhere in the function. -/
def run_pipeline_df (df : CondDf) (indicator_cols : List (String × Series)) : CondDf :=
  indicator_cols.foldl (fun d c => d ++ [c]) df

/-- One flattened result row of `optimize` (optimize.py lines 236-248):
the parameters of the combination plus its performance metrics, of which
only the sort key `metric_profit_factor` matters here. -/
structure FlatRow where
  params : List (String × ℚ)
  metric_profit_factor : WithTop ℚ
deriving DecidableEq, Repr

/-- `results_flat_df.sort_values(by='metric_profit_factor',
ascending=False)` (optimize.py line 253), modelled as a deterministic
comparison sort on the single key the source passes — no secondary key
is given to the sort. -/
def sortResults (rows : List FlatRow) : List FlatRow :=
  List.insertionSort (fun a b => b.metric_profit_factor ≤ a.metric_profit_factor) rows

/-- `generate_parameter_combinations` (optimize.py lines 13-37):
Cartesian product in `itertools.product` order, the last parameter
varying fastest. -/
def generate_parameter_combinations (param_ranges : List (String × List ℚ)) :
    List (List (String × ℚ)) :=
  param_ranges.foldr
    (fun kv acc => kv.2.flatMap (fun v => acc.map (fun rest => (kv.1, v) :: rest))) [[]]

/-- The claim of C9, formalized: in parallel mode `optimize` collects
results with `as_completed` (optimize.py lines 205-223), so the list fed
to the sort is some permutation of the generation-ordered results; the
claim says the final ranking is nevertheless a function of the inputs
alone (ties falling back to generation order). -/
def RankingDeterministic : Prop :=
  ∀ (generated arrival : List FlatRow), arrival.Perm generated →
    sortResults arrival = sortResults generated

/-! ### Concrete inputs used by the claims -/

/-- A two-bar table with all-false signals on both sides (C1). -/
def dfNoSignals : List Bar := [⟨0, 1, 1, 1, false, false⟩, ⟨1, 1, 1, 1, false, false⟩]

/-- Bar 0 opens a long (signal at bar 0, entry time = bar 1); bar 1 both
breaches the stop loss of that open long and carries a fresh buy signal
(C2). -/
def dfC2 : List Bar :=
  [⟨0, 100, 100, 100, true, false⟩,
   ⟨1, 50, 60, 80, true, false⟩,
   ⟨2, 10, 20, 30, false, false⟩]

/-- Bar 0 opens a long with entry time = bar 1; bar 1 immediately
breaches the stop loss, so the trade closes with
`exit_time = entry_time` (C3).  Timestamps strictly increase. -/
def dfC3 : List Bar :=
  [⟨0, 100, 100, 100, true, false⟩,
   ⟨1, 50, 60, 80, false, false⟩,
   ⟨2, 10, 20, 30, false, false⟩]

/-- Exit-phase bookkeeping for C2: a buy exit is recorded during
iteration `i` when the exit handler grows the buy trade list. -/
def BuyExitRecordedAt (df : List Bar) (tp sl : ℚ) (i : Nat) : Prop :=
  let s := btStateAt df tp sl i
  s.buyTrades.length < (handle_buy_exit i df s.buyPos s.buyTrades tp sl).2.length

/-- Entry-phase bookkeeping for C2: a buy entry is recorded during
iteration `i` when the side is flat after the exit phase and the entry
handler opens a position. -/
def BuyEntryRecordedAt (df : List Bar) (tp sl : ℚ) (i : Nat) : Prop :=
  let s := btStateAt df tp sl i
  let afterExit := (handle_buy_exit i df s.buyPos s.buyTrades tp sl).1
  afterExit = none ∧ (handle_buy_entry i df afterExit tp sl).isSome = true

/-- Mirror of `BuyExitRecordedAt` on the sell side. -/
def SellExitRecordedAt (df : List Bar) (tp sl : ℚ) (i : Nat) : Prop :=
  let s := btStateAt df tp sl i
  s.sellTrades.length < (handle_sell_exit i df s.sellPos s.sellTrades tp sl).2.length

/-- Mirror of `BuyEntryRecordedAt` on the sell side. -/
def SellEntryRecordedAt (df : List Bar) (tp sl : ℚ) (i : Nat) : Prop :=
  let s := btStateAt df tp sl i
  let afterExit := (handle_sell_exit i df s.sellPos s.sellTrades tp sl).1
  afterExit = none ∧ (handle_sell_entry i df afterExit tp sl).isSome = true

/-- A trades table with a `perc_chg` column holding the given pnl values
(entry and exit timestamps immaterial to the metrics under test). -/
def mkTradesDf (pnls : List ℚ) : Df :=
  [("entry_time", pnls.map (fun _ => 0)),
   ("exit_time", pnls.map (fun _ => 0)),
   ("perc_chg", pnls)]

/-- Two sweep results with equal profit factor but different parameters
(C9). -/
def rowA : FlatRow := ⟨[("tp", 1)], (2 : ℚ)⟩

def rowB : FlatRow := ⟨[("tp", 2)], (2 : ℚ)⟩

/-- The literal bar of the C5 tie-break test: low 95, high 106. -/
def dfC5 : List Bar := [⟨0, 95, 106, 0, false, false⟩]

/-- An open long with `sl_price = 96` and `tp_price = 105` (C5). -/
def otC5 : OpenTrade := ⟨100, 0, Side.long, 105, 96, 4⟩

/-- The single trade produced by `backtest` on `dfC3` (C3). -/
def tradeC3 : Trade := ⟨1, 100, Side.long, 101, 99, 1, 1, 99, -1 / 100⟩

/-- A one-column bar table for the evaluator error cases (C8). -/
def dfC8 : CondDf := [("close", [some 1, some 2])]


/-! ## Theorems

Helper lemmas first, then one theorem per claim (with counterexample and
witness theorems where applicable). -/

/-! ### Association-table lemmas -/

lemma find?_eq_none_of_hasCol_false (df : Df) (c : String) (h : df.hasCol c = false) :
    df.find? (fun p => p.1 == c) = none := by
  rw [List.find?_eq_none]
  intro p hp hpc
  have hx : df.any (fun p => p.1 == c) = true := List.any_eq_true.mpr ⟨p, hp, hpc⟩
  rw [Df.hasCol] at h
  rw [h] at hx
  exact Bool.false_ne_true hx

lemma setCol_of_absent (df : Df) (c : String) (v : List ℚ) (h : df.hasCol c = false) :
    df.setCol c v = df ++ [(c, v)] := by
  simp [Df.setCol, h]

lemma any_map_setCol (c c2 : String) (v : List ℚ) (h : c ≠ c2) :
    ∀ df : Df, (df.map (fun p => if p.1 == c then (c, v) else p)).any (fun p => p.1 == c2)
      = df.any (fun p => p.1 == c2)
  | [] => rfl
  | p :: ps => by
    simp only [List.map_cons, List.any_cons, any_map_setCol c c2 v h ps]
    by_cases hp : (p.1 == c) = true
    · have hpc : p.1 = c := by simpa using hp
      simp [hp, hpc]
    · simp [hp]

lemma find?_map_setCol (c c2 : String) (v : List ℚ) (h : c ≠ c2) :
    ∀ df : Df, (df.map (fun p => if p.1 == c then (c, v) else p)).find? (fun p => p.1 == c2)
      = df.find? (fun p => p.1 == c2)
  | [] => rfl
  | p :: ps => by
    by_cases hp : (p.1 == c) = true
    · have hpc : p.1 = c := by simpa using hp
      have hcc : ((c : String) == c2) = false := by simpa using h
      have hpc2 : (p.1 == c2) = false := by simp [hpc, hcc]
      rw [List.map_cons, if_pos hp]
      simp only [List.find?_cons, hcc, hpc2]
      exact find?_map_setCol c c2 v h ps
    · rw [List.map_cons, if_neg hp]
      by_cases hc2 : (p.1 == c2) = true
      · simp only [List.find?_cons, hc2]
      · have hc3 : (p.1 == c2) = false := by simpa using hc2
        simp only [List.find?_cons, hc3]
        exact find?_map_setCol c c2 v h ps

lemma hasCol_setCol_ne (df : Df) (c c2 : String) (v : List ℚ) (h : c ≠ c2) :
    (df.setCol c v).hasCol c2 = df.hasCol c2 := by
  by_cases hc : df.hasCol c
  · rw [Df.setCol, if_pos hc]
    exact any_map_setCol c c2 v h df
  · rw [setCol_of_absent df c v (by simpa using hc)]
    simp only [Df.hasCol, List.any_append, List.any_cons, List.any_nil]
    have hcc : ((c : String) == c2) = false := by simpa using h
    simp [hcc]

lemma getCol_setCol_ne (df : Df) (c c2 : String) (v : List ℚ) (h : c ≠ c2) :
    (df.setCol c v).getCol c2 = df.getCol c2 := by
  by_cases hc : df.hasCol c
  · rw [Df.setCol, if_pos hc, Df.getCol, Df.getCol, find?_map_setCol c c2 v h df]
  · rw [setCol_of_absent df c v (by simpa using hc), Df.getCol, Df.getCol, List.find?_append]
    have hcc : ((c : String) == c2) = false := by simpa using h
    cases hfind : df.find? (fun p => p.1 == c2) <;> simp [hfind, hcc]

lemma getCol_setCol_absent (df : Df) (c : String) (v : List ℚ) (h : df.hasCol c = false) :
    (df.setCol c v).getCol c = v := by
  rw [setCol_of_absent df c v h, Df.getCol, List.find?_append,
    find?_eq_none_of_hasCol_false df c h]
  simp

lemma length_le_setCol (df : Df) (c : String) (v : List ℚ) :
    df.length ≤ (df.setCol c v).length := by
  rw [Df.setCol]
  split
  · rw [List.length_map]
  · rw [List.length_append]
    omega

lemma length_setCol_absent (df : Df) (c : String) (v : List ℚ) (h : df.hasCol c = false) :
    (df.setCol c v).length = df.length + 1 := by
  rw [setCol_of_absent df c v h, List.length_append, List.length_cons, List.length_nil]

lemma hasCol_append_single (df : Df) (c : String) (v : List ℚ) :
    (df ++ [(c, v)]).hasCol c = true := by
  simp [Df.hasCol, List.any_append]

/-! ### Simulator loop lemmas -/

lemma btStateAt_succ (df : List Bar) (tp sl : ℚ) (k : Nat) :
    btStateAt df tp sl (k + 1) = btIter df tp sl (btStateAt df tp sl k) k := by
  rw [btStateAt, List.range_succ, List.foldl_append]
  rfl

lemma handle_buy_exit_spec (i : Nat) (df : List Bar) (cur : Option OpenTrade)
    (trades : List Trade) (tp sl : ℚ) :
    handle_buy_exit i df cur trades tp sl = (cur, trades) ∨
    (∃ t price chg, cur = some t ∧
      handle_buy_exit i df cur trades tp sl =
        (none, trades ++ [process_exit_signal t (bar df i).time price chg])) := by
  cases cur with
  | none => exact Or.inl rfl
  | some t =>
    rw [handle_buy_exit]
    split_ifs with h1 h2
    · exact Or.inr ⟨t, t.sl_price, -1 * sl / 100, rfl, rfl⟩
    · exact Or.inr ⟨t, t.tp_price, tp / 100, rfl, rfl⟩
    · exact Or.inl rfl

lemma handle_sell_exit_spec (i : Nat) (df : List Bar) (cur : Option OpenTrade)
    (trades : List Trade) (tp sl : ℚ) :
    handle_sell_exit i df cur trades tp sl = (cur, trades) ∨
    (∃ t price chg, cur = some t ∧
      handle_sell_exit i df cur trades tp sl =
        (none, trades ++ [process_exit_signal t (bar df i).time price chg])) := by
  cases cur with
  | none => exact Or.inl rfl
  | some t =>
    rw [handle_sell_exit]
    split_ifs with h1 h2
    · exact Or.inr ⟨t, t.sl_price, -1 * sl / 100, rfl, rfl⟩
    · exact Or.inr ⟨t, t.tp_price, tp / 100, rfl, rfl⟩
    · exact Or.inl rfl

lemma handle_buy_entry_spec (i : Nat) (df : List Bar) (cur : Option OpenTrade) (tp sl : ℚ) :
    handle_buy_entry i df cur tp sl = cur ∨
    (∃ ot, handle_buy_entry i df cur tp sl = some ot ∧
      ot.entry_time = (bar df (i + 1)).time) := by
  cases cur with
  | some t => exact Or.inl rfl
  | none =>
    rw [handle_buy_entry]
    split_ifs with h1
    · exact Or.inr ⟨_, rfl, rfl⟩
    · exact Or.inl rfl

lemma handle_sell_entry_spec (i : Nat) (df : List Bar) (cur : Option OpenTrade) (tp sl : ℚ) :
    handle_sell_entry i df cur tp sl = cur ∨
    (∃ ot, handle_sell_entry i df cur tp sl = some ot ∧
      ot.entry_time = (bar df (i + 1)).time) := by
  cases cur with
  | some t => exact Or.inl rfl
  | none =>
    rw [handle_sell_entry]
    split_ifs with h1
    · exact Or.inr ⟨_, rfl, rfl⟩
    · exact Or.inl rfl

/-- Main loop invariant: any open position was entered no later than the
current bar, and every closed trade satisfies `entry_time ≤ exit_time`. -/
lemma bt_invariant (df : List Bar) (tp sl : ℚ)
    (hmono : ∀ j, j < df.length → ∀ i, i ≤ j → (bar df i).time ≤ (bar df j).time) :
    ∀ k, k < df.length →
      (∀ ot, (btStateAt df tp sl k).buyPos = some ot → ot.entry_time ≤ (bar df k).time) ∧
      (∀ ot, (btStateAt df tp sl k).sellPos = some ot → ot.entry_time ≤ (bar df k).time) ∧
      (∀ t ∈ (btStateAt df tp sl k).buyTrades, t.entry_time ≤ t.exit_time) ∧
      (∀ t ∈ (btStateAt df tp sl k).sellTrades, t.entry_time ≤ t.exit_time) := by
  intro k
  induction k with
  | zero =>
    intro _
    refine ⟨?_, ?_, ?_, ?_⟩ <;> intro x hx <;> simp [btStateAt, initState] at hx
  | succ k ih =>
    intro hk1
    have hk : k < df.length := Nat.lt_of_succ_lt hk1
    obtain ⟨ih1, ih2, ih3, ih4⟩ := ih hk
    have hstep : (bar df k).time ≤ (bar df (k + 1)).time :=
      hmono (k + 1) hk1 k (Nat.le_succ k)
    rw [btStateAt_succ, btIter]
    have hbuy :
        (∀ ot, (handle_buy_entry k df
            (handle_buy_exit k df (btStateAt df tp sl k).buyPos
              (btStateAt df tp sl k).buyTrades tp sl).1 tp sl) = some ot →
          ot.entry_time ≤ (bar df (k + 1)).time) ∧
        (∀ t ∈ (handle_buy_exit k df (btStateAt df tp sl k).buyPos
            (btStateAt df tp sl k).buyTrades tp sl).2, t.entry_time ≤ t.exit_time) := by
      rcases handle_buy_exit_spec k df (btStateAt df tp sl k).buyPos
          (btStateAt df tp sl k).buyTrades tp sl with hex | ⟨t, price, chg, hcur, hex⟩
      · rw [hex]
        constructor
        · rcases handle_buy_entry_spec k df (btStateAt df tp sl k).buyPos tp sl with
            hen | ⟨ot, hen, hot⟩
          · rw [hen]
            intro ot hot
            exact le_trans (ih1 ot hot) hstep
          · rw [hen]
            intro ot2 hot2
            cases hot2
            rw [hot]
        · exact ih3
      · rw [hex]
        constructor
        · rcases handle_buy_entry_spec k df (none : Option OpenTrade) tp sl with
            hen | ⟨ot, hen, hot⟩
          · rw [hen]
            intro ot hot
            cases hot
          · rw [hen]
            intro ot2 hot2
            cases hot2
            rw [hot]
        · intro tr htr
          rcases List.mem_append.mp htr with hmem | hmem
          · exact ih3 tr hmem
          · rcases List.mem_singleton.mp hmem with rfl
            exact ih1 t hcur
    have hsell :
        (∀ ot, (handle_sell_entry k df
            (handle_sell_exit k df (btStateAt df tp sl k).sellPos
              (btStateAt df tp sl k).sellTrades tp sl).1 tp sl) = some ot →
          ot.entry_time ≤ (bar df (k + 1)).time) ∧
        (∀ t ∈ (handle_sell_exit k df (btStateAt df tp sl k).sellPos
            (btStateAt df tp sl k).sellTrades tp sl).2, t.entry_time ≤ t.exit_time) := by
      rcases handle_sell_exit_spec k df (btStateAt df tp sl k).sellPos
          (btStateAt df tp sl k).sellTrades tp sl with hex | ⟨t, price, chg, hcur, hex⟩
      · rw [hex]
        constructor
        · rcases handle_sell_entry_spec k df (btStateAt df tp sl k).sellPos tp sl with
            hen | ⟨ot, hen, hot⟩
          · rw [hen]
            intro ot hot
            exact le_trans (ih2 ot hot) hstep
          · rw [hen]
            intro ot2 hot2
            cases hot2
            rw [hot]
        · exact ih4
      · rw [hex]
        constructor
        · rcases handle_sell_entry_spec k df (none : Option OpenTrade) tp sl with
            hen | ⟨ot, hen, hot⟩
          · rw [hen]
            intro ot hot
            cases hot
          · rw [hen]
            intro ot2 hot2
            cases hot2
            rw [hot]
        · intro tr htr
          rcases List.mem_append.mp htr with hmem | hmem
          · exact ih4 tr hmem
          · rcases List.mem_singleton.mp hmem with rfl
            exact ih2 t hcur
    exact ⟨hbuy.1, hsell.1, hbuy.2, hsell.2⟩

/-! ### Signal and summary lemmas -/

lemma calculate_signals_aux :
    ∀ (cs : List Bool) (c : Bool) (n : Nat),
      (List.zipWith (fun prev cur => prev == some false && cur)
          (some c :: cs.map some) cs).getD n false
        = (!(c :: cs).getD n true && cs.getD n false)
  | [], c, n => by simp
  | d :: ds, c, 0 => by cases c <;> simp
  | d :: ds, c, n + 1 => by
    simp only [List.zipWith, List.getD_cons_succ]
    exact calculate_signals_aux ds d n

lemma perf_foldl_total_profit (r : ℚ) :
    ∀ (pnls : List ℚ) (a : PerfAcc),
      (pnls.foldl (perfStep r) a).total_profit
        = a.total_profit + (pnls.filter (fun p => decide (0 < p))).sum
  | [], a => by simp
  | p :: ps, a => by
    rw [List.foldl_cons, perf_foldl_total_profit r ps, List.filter_cons]
    by_cases hp : (0 : ℚ) < p
    · simp only [perfStep, gt_iff_lt, hp, decide_True, if_true, List.sum_cons]
      ring
    · simp only [perfStep, gt_iff_lt, hp, decide_False, Bool.false_eq_true, if_false]

lemma perf_foldl_total_loss (r : ℚ) :
    ∀ (pnls : List ℚ) (a : PerfAcc),
      (pnls.foldl (perfStep r) a).total_loss
        = a.total_loss + ((pnls.filter (fun p => decide (p ≤ 0))).map (fun p => |p|)).sum
  | [], a => by simp
  | p :: ps, a => by
    rw [List.foldl_cons, perf_foldl_total_loss r ps, List.filter_cons]
    by_cases hp : (0 : ℚ) < p
    · have hp2 : ¬ p ≤ 0 := not_le.mpr hp
      simp only [perfStep, gt_iff_lt, hp, hp2, decide_False, Bool.false_eq_true, if_false,
        if_true]
    · have hp2 : p ≤ 0 := not_lt.mp hp
      simp only [perfStep, gt_iff_lt, hp, hp2, decide_True, if_false, if_true,
        List.map_cons, List.sum_cons]
      ring

lemma abs_sum_nonpos_eq :
    ∀ pnls : List ℚ,
      ((pnls.filter (fun p => decide (p ≤ 0))).map (fun p => |p|)).sum
        = ((pnls.filter (fun p => decide (p < 0))).map (fun p => |p|)).sum
  | [] => rfl
  | p :: ps => by
    rw [List.filter_cons, List.filter_cons]
    rcases lt_trichotomy p 0 with hp | hp | hp
    · have h1 : p ≤ 0 := le_of_lt hp
      simp only [h1, hp, decide_True, if_true, List.map_cons, List.sum_cons,
        abs_sum_nonpos_eq ps]
    · subst hp
      simp [abs_sum_nonpos_eq ps]
    · have h1 : ¬ p ≤ 0 := not_le.mpr hp
      have h2 : ¬ p < 0 := not_lt.mpr (le_of_lt hp)
      simp only [h1, h2, decide_False, Bool.false_eq_true, if_false, abs_sum_nonpos_eq ps]

lemma profit_factor_mkTradesDf (pnls : List ℚ) (b r : ℚ) (h : pnls ≠ []) :
    (calculate_performance_summary (mkTradesDf pnls) b r).2.profit_factor =
      if (0 : ℚ) < ((pnls.filter (fun p => decide (p ≤ 0))).map (fun p => |p|)).sum
      then (((pnls.filter (fun p => decide (0 < p))).sum /
             ((pnls.filter (fun p => decide (p ≤ 0))).map (fun p => |p|)).sum : ℚ) : WithTop ℚ)
      else ⊤ := by
  have hlen : pnls.length ≠ 0 := by simpa [List.length_eq_zero] using h
  simp +decide [calculate_performance_summary, mkTradesDf, Df.nrows, Df.hasCol, Df.getCol,
    Df.setCol, List.find?_cons_of_pos, List.find?_cons_of_neg, List.length_map, hlen]
  rw [perf_foldl_total_profit, perf_foldl_total_loss]
  simp

/-! ### Optimizer lemmas -/

lemma run_pipeline_df_eq :
    ∀ (cols : List (String × Series)) (df : CondDf), run_pipeline_df df cols = df ++ cols
  | [], df => by simp [run_pipeline_df]
  | c :: cs, df => by
    have ih := run_pipeline_df_eq cs (df ++ [c])
    rw [run_pipeline_df] at ih ⊢
    rw [List.foldl_cons, ih, List.append_assoc, List.singleton_append]

lemma CondDf.getCol_append_left (df : CondDf) (cols : List (String × Series)) (c : String)
    (h : CondDf.hasCol df c = true) :
    CondDf.getCol (df ++ cols) c = CondDf.getCol df c := by
  rw [CondDf.getCol, CondDf.getCol, List.find?_append]
  obtain ⟨p, hp, hpc⟩ := List.any_eq_true.mp h
  cases hf : List.find? (fun p => p.1 == c) df with
  | none =>
    rw [List.find?_eq_none] at hf
    exact absurd hpc (hf p hp)
  | some q => simp


/-! ### Claim theorems -/

/-- C1: on a bar table whose buy and sell signal columns are all false,
`backtest` does return the single zero-valued sentinel row; but
`calculate_performance_summary` on that sentinel row yields
`total_trades = 1` and `profit_factor = ⊤` (the sentinel is counted as
one zero-pnl trade because the one-row frame is not `.empty`), with only
`final_balance = initial_balance` as the claim states. -/
theorem c1_sentinel_summary :
    backtest dfNoSignals 1 1 = create_empty_result ∧
    (calculate_performance_summary create_empty_result 10000 (1 / 100)).2.final_balance
      = 10000 ∧
    (calculate_performance_summary create_empty_result 10000 (1 / 100)).2.total_trades = 1 ∧
    (calculate_performance_summary create_empty_result 10000 (1 / 100)).2.profit_factor = ⊤ := by
  refine ⟨?_, ?_, ?_, ?_⟩
  · norm_num +decide [backtest, dfNoSignals, backtestTrades, btStateAt, btIter, initState,
      List.range_succ, handle_buy_exit, handle_sell_exit, handle_buy_entry, handle_sell_entry,
      bar]
  all_goals
    norm_num +decide [calculate_performance_summary, create_empty_result, Df.nrows, Df.hasCol,
      Df.getCol, Df.setCol, perfStep, listMinD, listMaxD,
      List.find?_cons_of_pos, List.find?_cons_of_neg]

/-- C2 counterexample: it is not true that an exit recorded at bar i
rules out an entry on the same side at bar i — on `dfC2` iteration 1
records a buy exit and then immediately a new buy entry, precisely
because exits are processed before entries. -/
theorem c2_counterexample :
    ¬ ∀ (df : List Bar) (tp sl : ℚ) (i : Nat),
        (BuyExitRecordedAt df tp sl i → ¬ BuyEntryRecordedAt df tp sl i) ∧
        (SellExitRecordedAt df tp sl i → ¬ SellEntryRecordedAt df tp sl i) := by
  intro h
  have hexit : BuyExitRecordedAt dfC2 1 1 1 := by
    norm_num +decide [BuyExitRecordedAt, btStateAt, btIter, initState, dfC2, List.range_succ,
      handle_buy_exit, handle_sell_exit, handle_buy_entry, handle_sell_entry,
      process_exit_signal, bar]
  have hentry : BuyEntryRecordedAt dfC2 1 1 1 := by
    norm_num +decide [BuyEntryRecordedAt, btStateAt, btIter, initState, dfC2, List.range_succ,
      handle_buy_exit, handle_sell_exit, handle_buy_entry, handle_sell_entry,
      process_exit_signal, bar]
  exact (h dfC2 1 1 1).1 hexit hentry

/-- C2 amended: what the exit-before-entry ordering does guarantee is
the converse — a position entered at iteration i is still open at the
end of iteration i, so the simulator never both opens a position and
closes that same position within one iteration. -/
theorem c2_amended (df : List Bar) (tp sl : ℚ) (i : Nat) :
    (BuyEntryRecordedAt df tp sl i → (btStateAt df tp sl (i + 1)).buyPos.isSome = true) ∧
    (SellEntryRecordedAt df tp sl i → (btStateAt df tp sl (i + 1)).sellPos.isSome = true) := by
  constructor
  · intro h
    rw [BuyEntryRecordedAt] at h
    rw [btStateAt_succ, btIter]
    exact h.2
  · intro h
    rw [SellEntryRecordedAt] at h
    rw [btStateAt_succ, btIter]
    exact h.2

/-- C2 witness: the buy entry recorded at iteration 0 of `dfC2` leaves
the long position open at the end of that iteration. -/
theorem c2_amended_witness : (btStateAt dfC2 1 1 1).buyPos.isSome = true := by
  apply (c2_amended dfC2 1 1 0).1
  norm_num +decide [BuyEntryRecordedAt, btStateAt, btIter, initState, dfC2, List.range_succ,
    handle_buy_exit, handle_sell_exit, handle_buy_entry, handle_sell_entry, bar]

/-- C3 counterexample: even with strictly increasing timestamps,
`exit_time` is not strictly greater than `entry_time` — on `dfC3` the
stop loss is hit on the bar right after the signal bar, giving
`exit_time = entry_time` (both are the timestamp of bar 1). -/
theorem c3_counterexample :
    ¬ ∀ (df : List Bar) (tp sl : ℚ),
        (∀ j, j < df.length → ∀ i, i < j → (bar df i).time < (bar df j).time) →
        ∀ t ∈ backtestTrades df tp sl, t.entry_time < t.exit_time := by
  intro h
  have hmono : ∀ j, j < dfC3.length → ∀ i, i < j → (bar dfC3 i).time < (bar dfC3 j).time := by
    intro j hj i hij
    rw [dfC3] at hj
    simp only [List.length_cons, List.length_nil] at hj
    interval_cases j <;> interval_cases i <;> norm_num [bar, dfC3]
  have htr : backtestTrades dfC3 1 1 = [tradeC3] := by
    norm_num +decide [backtestTrades, btStateAt, btIter, initState, dfC3, List.range_succ,
      handle_buy_exit, handle_sell_exit, handle_buy_entry, handle_sell_entry,
      process_exit_signal, bar, tradeC3]
  have hc := h dfC3 1 1 hmono tradeC3 (by rw [htr]; exact List.mem_singleton_self _)
  rw [tradeC3] at hc
  norm_num at hc

/-- C3 amended: with nondecreasing bar timestamps, every closed trade
emitted by the simulator satisfies `entry_time ≤ exit_time` (equality is
attained when the exit triggers on the bar right after the signal). -/
theorem c3_amended (df : List Bar) (tp sl : ℚ)
    (hmono : ∀ j, j < df.length → ∀ i, i ≤ j → (bar df i).time ≤ (bar df j).time) :
    ∀ t ∈ backtestTrades df tp sl, t.entry_time ≤ t.exit_time := by
  intro t ht
  rw [backtestTrades] at ht
  rcases Nat.eq_zero_or_pos df.length with hlen | hlen
  · rw [hlen] at ht
    simp [btStateAt, initState] at ht
  · have hlt : df.length - 1 < df.length := by omega
    obtain ⟨-, -, h3, h4⟩ := bt_invariant df tp sl hmono (df.length - 1) hlt
    rcases List.mem_append.mp ht with hmem | hmem
    · exact h3 t hmem
    · exact h4 t hmem

/-- C3 witness: the concrete trade of `dfC3` satisfies the amended
inequality. -/
theorem c3_amended_witness : tradeC3.entry_time ≤ tradeC3.exit_time := by
  apply c3_amended dfC3 1 1
  · intro j hj i hij
    rw [dfC3] at hj
    simp only [List.length_cons, List.length_nil] at hj
    interval_cases j <;> interval_cases i <;> norm_num [bar, dfC3]
  · have htr : backtestTrades dfC3 1 1 = [tradeC3] := by
      norm_num +decide [backtestTrades, btStateAt, btIter, initState, dfC3, List.range_succ,
        handle_buy_exit, handle_sell_exit, handle_buy_entry, handle_sell_entry,
        process_exit_signal, bar, tradeC3]
    rw [htr]
    exact List.mem_singleton_self _

/-- C4: `run_backtest_with_params` never resamples.  A
resample-frequency key is classified into `trading_params`, whose only
keys ever read are `tp` and `sl` (so its value is ignored), and the
dataframe flow of the run only appends indicator columns — every column
of the input table reaches the evaluator and the backtest unchanged. -/
theorem c4_resample_param_ignored :
    classifyParam "resample_freq" = ParamTarget.trading ∧
    (∀ (params : List (String × ℚ)) (v : ℚ),
        tpOf (("resample_freq", v) :: params) = tpOf params ∧
        slOf (("resample_freq", v) :: params) = slOf params) ∧
    (∀ (df : CondDf) (cols : List (String × Series)) (c : String),
        CondDf.hasCol df c = true →
        CondDf.getCol (run_pipeline_df df cols) c = CondDf.getCol df c) := by
  refine ⟨by decide, ?_, ?_⟩
  · intro params v
    constructor
    · simp +decide [tpOf, tradingParams, List.filter_cons, List.find?_cons]
    · simp +decide [slOf, tradingParams, List.filter_cons, List.find?_cons]
  · intro df cols c h
    rw [run_pipeline_df_eq cols df]
    exact CondDf.getCol_append_left df cols c h

/-- C4 witness: a concrete appended indicator column leaves `close`
unchanged, and a concrete resample key does not affect `tp`. -/
theorem c4_resample_param_ignored_witness :
    CondDf.getCol (run_pipeline_df [("close", [some 1])] [("SMA_2", [none])]) "close"
      = [some 1] ∧
    tpOf [("resample_freq", 60), ("tp", 2)] = tpOf [("tp", 2)] := by
  constructor
  · exact c4_resample_param_ignored.2.2 [("close", [some 1])] [("SMA_2", [none])] "close"
      (by decide)
  · exact (c4_resample_param_ignored.2.1 [("tp", 2)] 60).1

/-- C5: when a bar breaches both the stop loss and the take profit of an
open long, the exit is recorded at `sl_price` with pnl `-sl/100` —
stop loss has priority because it is evaluated first. -/
theorem c5_stop_loss_priority (i : Nat) (df : List Bar) (t : OpenTrade)
    (trades : List Trade) (tp sl : ℚ)
    (hsl : (bar df i).low < t.sl_price) (htp : (bar df i).high > t.tp_price) :
    handle_buy_exit i df (some t) trades tp sl =
      (none, trades ++ [process_exit_signal t (bar df i).time t.sl_price (-1 * sl / 100)]) ∧
    (process_exit_signal t (bar df i).time t.sl_price (-1 * sl / 100)).exit_price
      = t.sl_price ∧
    (process_exit_signal t (bar df i).time t.sl_price (-1 * sl / 100)).perc_chg
      = -1 * sl / 100 := by
  refine ⟨?_, rfl, rfl⟩
  rw [handle_buy_exit]
  rw [if_pos hsl]

/-- C5 witness at the literal bar of the claim: low 95 < sl 96 and
high 106 > tp 105, and the recorded exit price is 96. -/
theorem c5_stop_loss_priority_witness :
    (bar dfC5 0).low < otC5.sl_price ∧ (bar dfC5 0).high > otC5.tp_price ∧
    (process_exit_signal otC5 (bar dfC5 0).time otC5.sl_price (-1 * 4 / 100)).exit_price
      = 96 := by
  have h1 : (bar dfC5 0).low < otC5.sl_price := by norm_num [bar, dfC5, otC5]
  have h2 : (bar dfC5 0).high > otC5.tp_price := by norm_num [bar, dfC5, otC5]
  have h := c5_stop_loss_priority 0 dfC5 otC5 [] 5 4 h1 h2
  refine ⟨h1, h2, ?_⟩
  rw [h.2.1]
  norm_num [otC5]

/-- C6: the derived signal is true exactly where the previous condition
value is false and the current one is true — never on the first bar —
and the condition sequence [F,T,T,T,F,T] yields [F,T,F,F,F,T]. -/
theorem c6_edge_trigger :
    (∀ (conds : List Bool) (i : Nat),
        (calculate_signals conds).getD i false =
          (decide (i ≠ 0) && !conds.getD (i - 1) true && conds.getD i false)) ∧
    calculate_signals [false, true, true, true, false, true] =
      [false, true, false, false, false, true] := by
  constructor
  · intro conds i
    cases conds with
    | nil => simp [calculate_signals]
    | cons c cs =>
      cases i with
      | zero => simp [calculate_signals]
      | succ n =>
        simp only [calculate_signals, List.map_cons, List.zipWith, List.getD_cons_succ]
        rw [calculate_signals_aux cs c n]
        simp
  · decide

/-- C7: the profit factor is the sum of winning pnl values divided by
the sum of absolute losing pnl values whenever a losing trade exists, it
is `⊤` when there is a winner and no loser, and on the concrete pnl list
[0.02, -0.01, 0.03, -0.02] it equals (0.02+0.03)/(0.01+0.02). -/
theorem c7_profit_factor :
    (∀ (pnls : List ℚ) (b r : ℚ), pnls ≠ [] →
      ((∃ p ∈ pnls, p < 0) →
        (calculate_performance_summary (mkTradesDf pnls) b r).2.profit_factor =
          (((pnls.filter (fun p => decide (0 < p))).sum /
            ((pnls.filter (fun p => decide (p < 0))).map (fun p => |p|)).sum : ℚ) :
              WithTop ℚ)) ∧
      ((∃ p ∈ pnls, 0 < p) → (∀ p ∈ pnls, ¬ p < 0) →
        (calculate_performance_summary (mkTradesDf pnls) b r).2.profit_factor = ⊤)) ∧
    (calculate_performance_summary
        (mkTradesDf [2/100, -1/100, 3/100, -2/100]) 10000 (1/100)).2.profit_factor
      = (((2/100 + 3/100) / (1/100 + 2/100) : ℚ) : WithTop ℚ) := by
  constructor
  · intro pnls b r hne
    constructor
    · rintro ⟨p, hmem, hneg⟩
      rw [profit_factor_mkTradesDf pnls b r hne, abs_sum_nonpos_eq pnls]
      have habs : |p| ∈ (pnls.filter (fun p => decide (p < 0))).map (fun p => |p|) :=
        List.mem_map.mpr ⟨p, List.mem_filter.mpr ⟨hmem, by simp [hneg]⟩, rfl⟩
      have hnn : ∀ x ∈ (pnls.filter (fun p => decide (p < 0))).map (fun p => |p|), 0 ≤ x := by
        intro x hx
        obtain ⟨q, -, rfl⟩ := List.mem_map.mp hx
        exact abs_nonneg q
      have hpos : 0 < ((pnls.filter (fun p => decide (p < 0))).map (fun p => |p|)).sum :=
        lt_of_lt_of_le (abs_pos.mpr (ne_of_lt hneg)) (List.single_le_sum hnn _ habs)
      rw [if_pos hpos]
    · intro _ hnoneg
      rw [profit_factor_mkTradesDf pnls b r hne]
      have hz : ((pnls.filter (fun p => decide (p ≤ 0))).map (fun p => |p|)).sum = 0 := by
        apply List.sum_eq_zero
        intro x hx
        obtain ⟨q, hq, rfl⟩ := List.mem_map.mp hx
        obtain ⟨hqmem, hqle⟩ := List.mem_filter.mp hq
        have h1 : q ≤ 0 := by simpa using hqle
        have h2 : ¬ q < 0 := hnoneg q hqmem
        have h3 : q = 0 := le_antisymm h1 (not_lt.mp h2)
        simp [h3]
      simp only [hz]
      rw [if_neg (lt_irrefl 0)]
  · rw [profit_factor_mkTradesDf _ _ _ (by simp)]
    norm_num [List.filter_cons, abs_of_pos]

/-- C7 witness at the concrete pnl list of the claim. -/
theorem c7_profit_factor_witness :
    (calculate_performance_summary
        (mkTradesDf [2/100, -1/100, 3/100, -2/100]) 10000 (1/100)).2.profit_factor =
      ((([(2:ℚ)/100, -1/100, 3/100, -2/100].filter (fun p => decide (0 < p))).sum /
        (([(2:ℚ)/100, -1/100, 3/100, -2/100].filter
            (fun p => decide (p < 0))).map (fun p => |p|)).sum : ℚ) : WithTop ℚ) :=
  (c7_profit_factor.1 [2/100, -1/100, 3/100, -2/100] 10000 (1/100) (by simp)).1
    ⟨-1/100, by norm_num, by norm_num⟩

lemma cmpSeries_undef_eq_false (f : Option ℚ → Option ℚ → Bool)
    (hl : ∀ b, f none b = false) (hr : ∀ a, f a none = false) :
    ∀ (l r : Series) (i : Nat),
      l.getD i none = none ∨ r.getD i none = none →
      (cmpSeries f l r).getD i false = false := by
  intro l
  induction l with
  | nil => intro r i h; simp [cmpSeries]
  | cons a as ih =>
    intro r i h
    cases r with
    | nil => simp [cmpSeries]
    | cons b bs =>
      cases i with
      | zero =>
        simp only [List.getD_cons_zero] at h
        rcases h with rfl | rfl
        · simp [cmpSeries, hl]
        · simp [cmpSeries, hr]
      | succ n =>
        simp only [List.getD_cons_succ] at h
        simpa [cmpSeries] using ih bs n h

lemma cmpSeries_pyNe_undef :
    ∀ (l r : Series) (i : Nat), i < l.length → i < r.length →
      l.getD i none = none ∨ r.getD i none = none →
      (cmpSeries pyNe l r).getD i false = true := by
  intro l
  induction l with
  | nil => intro r i h1 _ _; exact absurd h1 (by simp)
  | cons a as ih =>
    intro r i h1 h2 h
    cases r with
    | nil => exact absurd h2 (by simp)
    | cons b bs =>
      cases i with
      | zero =>
        simp only [List.getD_cons_zero] at h
        rcases h with rfl | rfl
        · cases b <;> simp [cmpSeries, pyNe]
        · cases a <;> simp [cmpSeries, pyNe]
      | succ n =>
        simp only [List.getD_cons_succ] at h
        simp only [List.length_cons, Nat.succ_lt_succ_iff] at h1 h2
        simpa [cmpSeries] using ih bs n h1 h2 h

/-- C8 counterexample: it is not true that every comparison involving an
undefined value resolves to false — the `!=` comparator follows IEEE
inequality, where a missing operand makes the comparison TRUE, and the
boolean result leaves `.fillna(False)` nothing to fill.  Concretely,
evaluating `close != close.shift(1)` on a two-row table makes row 0 of
the accumulated buy-conditions column true although its lagged operand
is undefined there. -/
theorem c8_counterexample :
    (¬ ∀ (name : String) (f : Option ℚ → Option ℚ → Bool), (name, f) ∈ operatorsList →
        ∀ (l r : Series) (i : Nat),
          l.getD i none = none ∨ r.getD i none = none →
          (cmpSeries f l r).getD i false = false) ∧
    apply_buy_conditions dfC8 [⟨⟨"close", 0⟩, "!=", ⟨"close", 1⟩⟩] =
      Except.ok [true, true] := by
  constructor
  · intro h
    have hc := h "!=" pyNe (by simp [operatorsList]) [none] [some 1] 0 (Or.inl rfl)
    simp [cmpSeries, pyNe] at hc
  · norm_num +decide [apply_buy_conditions, operatorsList, get_shifted_series, CondDf.hasCol,
      CondDf.getCol, CondDf.nrows, shiftSeries, cmpSeries, dfC8, pyNe, Except.instMonad,
      Bind.bind, Except.bind, Pure.pure, Except.pure, List.replicate, bne_iff_ne,
      List.find?_cons_of_pos, List.find?_cons_of_neg, List.foldlM_cons]

/-- C8 amended: the evaluator fails with a column error when a condition
references a missing column, fails with a comparator error when the
comparator is outside the six supported ones, and a comparison involving
an undefined value (for example a lag larger than the current index)
never propagates as undefined — it resolves to false for the
comparators `>`, `<`, `==`, `>=` and `<=`, and to true for `!=` (IEEE
inequality against `NaN`). -/
theorem c8_evaluator_errors :
    (∀ (df : CondDf) (c : Condition),
        (operatorsList.find? (fun p => p.1 == c.comparator)).isSome = true →
        CondDf.hasCol df c.left_operand.column = false →
        apply_buy_conditions df [c] =
          Except.error
            ("Column " ++ c.left_operand.column ++ " does not exist in DataFrame.")) ∧
    (∀ (df : CondDf) (c : Condition),
        c.comparator ∉ ([">", "<", ">=", "<=", "==", "!="] : List String) →
        apply_buy_conditions df [c] =
          Except.error ("Invalid comparator: " ++ c.comparator)) ∧
    (∀ (name : String) (f : Option ℚ → Option ℚ → Bool), (name, f) ∈ operatorsList →
        name ≠ "!=" →
        ∀ (l r : Series) (i : Nat),
          l.getD i none = none ∨ r.getD i none = none →
          (cmpSeries f l r).getD i false = false) ∧
    (∀ (l r : Series) (i : Nat), i < l.length → i < r.length →
        l.getD i none = none ∨ r.getD i none = none →
        (cmpSeries pyNe l r).getD i false = true) ∧
    (∀ (s : Series) (n i : Nat), i < n → (shiftSeries n s).getD i none = none) := by
  refine ⟨?_, ?_, ?_, ?_, ?_⟩
  · intro df c hop hcol
    cases hfind : operatorsList.find? (fun p => p.1 == c.comparator) with
    | none => rw [hfind] at hop; exact absurd hop (by simp)
    | some op =>
      rw [apply_buy_conditions]
      simp only [List.foldlM_cons, List.foldlM_nil, hfind]
      rw [get_shifted_series, if_neg (by simp [hcol])]
      rfl
  · intro df c hmem
    have hfind : operatorsList.find? (fun p => p.1 == c.comparator) = none := by
      simp only [List.mem_cons, List.not_mem_nil, or_false, not_or] at hmem
      obtain ⟨h1, h2, h3, h4, h5, h6⟩ := hmem
      rw [List.find?_eq_none]
      intro p hp
      rw [operatorsList] at hp
      simp only [List.mem_cons, List.not_mem_nil, or_false] at hp
      rcases hp with rfl | rfl | rfl | rfl | rfl | rfl <;>
        simp [Ne.symm h1, Ne.symm h2, Ne.symm h3, Ne.symm h4, Ne.symm h5, Ne.symm h6]
    rw [apply_buy_conditions]
    simp only [List.foldlM_cons, List.foldlM_nil, hfind]
    rfl
  · intro name f hmem hname l r i h
    rw [operatorsList] at hmem
    simp only [List.mem_cons, List.not_mem_nil, or_false] at hmem
    rcases hmem with h6 | h6 | h6 | h6 | h6 | h6 <;> injection h6 with hn hf
    · subst hf
      exact cmpSeries_undef_eq_false pyGt (fun b => by cases b <;> rfl)
        (fun a => by cases a <;> rfl) l r i h
    · subst hf
      exact cmpSeries_undef_eq_false pyLt (fun b => by cases b <;> rfl)
        (fun a => by cases a <;> rfl) l r i h
    · subst hf
      exact cmpSeries_undef_eq_false pyEq (fun b => by cases b <;> rfl)
        (fun a => by cases a <;> rfl) l r i h
    · exact absurd hn hname
    · subst hf
      exact cmpSeries_undef_eq_false pyGe (fun b => by cases b <;> rfl)
        (fun a => by cases a <;> rfl) l r i h
    · subst hf
      exact cmpSeries_undef_eq_false pyLe (fun b => by cases b <;> rfl)
        (fun a => by cases a <;> rfl) l r i h
  · exact cmpSeries_pyNe_undef
  · intro s n i hin
    rw [shiftSeries, List.getD_eq_getElem?_getD]
    by_cases hlen : i < s.length
    · simp [List.getElem?_take, List.getElem?_append, List.getElem?_replicate, hin, hlen,
        List.getElem_append_left, List.getElem_replicate, List.length_replicate]
    · simp [List.getElem?_take, hlen]

/-- C8 witness: concrete missing-column and invalid-comparator failures,
a concrete undefined `>` comparison resolving to false, a concrete
undefined `!=` comparison resolving to true, and a concrete
out-of-range lag producing an undefined value. -/
theorem c8_evaluator_errors_witness :
    apply_buy_conditions dfC8 [⟨⟨"sma", 0⟩, ">", ⟨"close", 0⟩⟩] =
      Except.error "Column sma does not exist in DataFrame." ∧
    apply_buy_conditions dfC8 [⟨⟨"close", 0⟩, "><", ⟨"close", 0⟩⟩] =
      Except.error "Invalid comparator: ><" ∧
    (cmpSeries pyGt [none] [some 1]).getD 0 false = false ∧
    (cmpSeries pyNe [none] [some 1]).getD 0 false = true ∧
    (shiftSeries 1 [some 5]).getD 0 none = none := by
  refine ⟨?_, ?_, ?_, ?_, ?_⟩
  · exact c8_evaluator_errors.1 dfC8 ⟨⟨"sma", 0⟩, ">", ⟨"close", 0⟩⟩ (by decide) (by decide)
  · exact c8_evaluator_errors.2.1 dfC8 ⟨⟨"close", 0⟩, "><", ⟨"close", 0⟩⟩ (by decide)
  · exact c8_evaluator_errors.2.2.1 ">" pyGt (by simp [operatorsList]) (by decide)
      [none] [some 1] 0 (Or.inl rfl)
  · exact c8_evaluator_errors.2.2.2.1 [none] [some 1] 0 (by decide) (by decide) (Or.inl rfl)
  · exact c8_evaluator_errors.2.2.2.2 [some 5] 1 0 (by decide)

/-- C9 counterexample: the final ranking is not a function of the inputs
alone — two valid completion orders of the same two results (equal
profit factor, different parameters) sort to different rankings, because
the only sort key is the profit factor. -/
theorem c9_counterexample : ¬ RankingDeterministic := by
  intro h
  have hperm : ([rowB, rowA] : List FlatRow).Perm [rowA, rowB] := List.Perm.swap rowA rowB []
  have heq := h [rowA, rowB] [rowB, rowA] hperm
  have e1 : sortResults [rowB, rowA] = [rowB, rowA] := by
    simp [sortResults, List.insertionSort, List.orderedInsert, rowA, rowB]
  have e2 : sortResults [rowA, rowB] = [rowA, rowB] := by
    simp [sortResults, List.insertionSort, List.orderedInsert, rowA, rowB]
  rw [e1, e2] at heq
  simp only [List.cons.injEq] at heq
  have hBA : rowB = rowA := heq.1
  rw [rowA, rowB] at hBA
  simp only [FlatRow.mk.injEq, List.cons.injEq, Prod.mk.injEq] at hBA
  exact absurd hBA.1.1.2 (by norm_num)

/-- C9 amended: the ranking is sorted descending by profit factor and is
a permutation of the collected results; tie order follows whatever
arrival order the sort receives, which in parallel mode is the workers'
completion order, not the combination generation order. -/
theorem c9_amended (rows : List FlatRow) :
    List.Sorted (fun a b => b.metric_profit_factor ≤ a.metric_profit_factor)
      (sortResults rows) ∧
    (sortResults rows).Perm rows := by
  constructor
  · haveI : IsTotal FlatRow (fun a b => b.metric_profit_factor ≤ a.metric_profit_factor) :=
      ⟨fun a b => le_total _ _⟩
    haveI : IsTrans FlatRow (fun a b => b.metric_profit_factor ≤ a.metric_profit_factor) :=
      ⟨fun a b c h1 h2 => le_trans h2 h1⟩
    exact List.sorted_insertionSort _ rows
  · exact List.perm_insertionSort _ rows

/-- C10: `calculate_performance_summary` mutates its non-empty input
table — after the call the table carries a `duration` column equal to
`exit_time - entry_time` per row, and the table differs from the input
whenever the input had no `duration` column. -/
theorem c10_mutates_input (df : Df) (b r : ℚ)
    (h0 : df.nrows ≠ 0) (hd : df.hasCol "duration" = false) :
    (calculate_performance_summary df b r).1.hasCol "duration" = true ∧
    (calculate_performance_summary df b r).1.getCol "duration"
      = List.zipWith (fun a b => a - b) (df.getCol "exit_time") (df.getCol "entry_time") ∧
    (calculate_performance_summary df b r).1 ≠ df := by
  have hproj :
      (calculate_performance_summary df b r).1 =
        (((df.setCol "entry_time" (df.getCol "entry_time")).setCol "exit_time"
            (df.getCol "exit_time")).setCol "duration"
          (List.zipWith (fun a b => a - b) (df.getCol "exit_time")
            (df.getCol "entry_time"))) := by
    rw [calculate_performance_summary, if_neg h0]
  have hd1 : ((df.setCol "entry_time" (df.getCol "entry_time")).setCol "exit_time"
      (df.getCol "exit_time")).hasCol "duration" = false := by
    rw [hasCol_setCol_ne _ _ _ _ (by decide), hasCol_setCol_ne _ _ _ _ (by decide)]
    exact hd
  refine ⟨?_, ?_, ?_⟩
  · rw [hproj, setCol_of_absent _ _ _ hd1]
    exact hasCol_append_single _ _ _
  · rw [hproj, getCol_setCol_absent _ _ _ hd1]
  · rw [hproj]
    intro heq
    have hlen := congrArg List.length heq
    rw [length_setCol_absent _ _ _ hd1] at hlen
    have h1 := length_le_setCol df "entry_time" (df.getCol "entry_time")
    have h2 := length_le_setCol (df.setCol "entry_time" (df.getCol "entry_time")) "exit_time"
      (df.getCol "exit_time")
    omega

/-- C10 witness at a concrete one-row trade table. -/
theorem c10_mutates_input_witness :
    (calculate_performance_summary (mkTradesDf [1]) 10000 (1/100)).1.hasCol "duration"
      = true := by
  have h := c10_mutates_input (mkTradesDf [1]) 10000 (1/100) (by decide) (by decide)
  exact h.1

end BtOpt
